import Mathlib

/-!
# Thunder, Source/core/Portability.cpp

A shallow embedding of the call-stack capture (GetCallStack and its signal
handler), of the 64-bit byte-order helpers and of the Format helper, with the
properties that the specification states about them.

Conventions of the embedding (LP64 Linux build with THUNDER_BACKTRACE):

* memory is an array of pointer-sized slots, a pointer is the index of a slot
  (sizeof(void*) = 8, size_t is 64 bits wide);
* the process can access the slots of its blocks only; memset, memmove and a
  store through a pointer that reach outside them end the process (SIGSEGV)
  before anything is written;
* int and uint32_t values are integers, with the conversions and the
  wrap-around of the source written out (toInt32, toUInt32, toSizeT);
* the platform stack walk (backtrace) is a parameter: for a thread and a size
  it gives the slots it stores and the count it returns.
-/

namespace Thunder

/-! ## Machine integers and memory -/

/-- Memory as pointer-sized slots. -/
abbrev Mem := Nat → Nat

/-- The value of sizeof(void*). -/
def sizeofPtr : Nat := 8

/-- Modulus of size_t arithmetic. -/
def SIZE_MOD : Nat := 2 ^ 64

/-- Conversion of an int to uint32_t. -/
def toUInt32 (x : Int) : Nat := (x % (2 ^ 32 : Int)).toNat

/-- Conversion of a uint32_t to int. -/
def toInt32 (n : Nat) : Int :=
  if n % 2 ^ 32 < 2 ^ 31 then ((n % 2 ^ 32 : Nat) : Int) else ((n % 2 ^ 32 : Nat) : Int) - 2 ^ 32

/-- The int that compiled int arithmetic yields for the exact result x: it
wraps around at INT_MIN and INT_MAX. -/
def wrapInt32 (x : Int) : Int := toInt32 (toUInt32 x)

/-- Conversion of an int to size_t. -/
def toSizeT (x : Int) : Nat := (x % (2 ^ 64 : Int)).toNat

/-- The slot value obtained by filling every byte of a slot with the byte c. -/
def fillWord (c : Nat) : Nat := (c % 256) * 0x0101010101010101

/-- Whether the n slots from p on lie in one of the blocks of memory the
process can access; a block is its first slot and its number of slots. An
access of no slot is always allowed. -/
def accessible (blocks : List (Nat × Nat)) (p n : Nat) : Bool :=
  n == 0 || blocks.any (fun b => decide (b.1 ≤ p) && decide (p + n ≤ b.1 + b.2))

/-- The libc memset on slots: count is a number of bytes. The result is none
when the range is not accessible: the process is killed. -/
def memset (blocks : List (Nat × Nat)) (m : Mem) (dst : Nat) (c : Nat) (count : Nat) :
    Option Mem :=
  if accessible blocks dst (count / sizeofPtr) = true then
    some (fun a => if dst ≤ a ∧ a < dst + count / sizeofPtr then fillWord c else m a)
  else none

/-- The libc memmove on slots: count is a number of bytes; the source range is
read as it was before the call, so overlapping ranges are handled. The result
is none when the source or the destination range is not accessible: the
process is killed. -/
def memmove (blocks : List (Nat × Nat)) (m : Mem) (dst src : Nat) (count : Nat) : Option Mem :=
  if accessible blocks dst (count / sizeofPtr) = true ∧
      accessible blocks src (count / sizeofPtr) = true then
    some (fun a => if dst ≤ a ∧ a < dst + count / sizeofPtr then m (src + (a - dst)) else m a)
  else none

/-- One pointer store; none when the slot is not accessible. -/
def store (blocks : List (Nat × Nat)) (m : Mem) (p : Nat) (v : Nat) : Option Mem :=
  if accessible blocks p 1 = true then some (fun a => if a = p then v else m a) else none

/-- Stores a list of addresses from slot p on. -/
def storeList (m : Mem) (p : Nat) (xs : List Nat) : Mem :=
  fun a => if p ≤ a ∧ a < p + xs.length then xs.getD (a - p) 0 else m a

/-- The n slots from p on. -/
def readBuf (m : Mem) (p : Nat) (n : Nat) : List Nat :=
  (List.range n).map (fun i => m (p + i))

/-- What one call of the platform stack walk does: the slots it stores, from
the start of the buffer on, and the count it returns. The stored slots can be
more than the count (glibc can leave a null after the frames it counts). -/
structure Walked where
  stored : List Nat
  count : Int
  deriving DecidableEq, Repr

/-- The platform stack walk: stores what the walk yields for this size and
returns its count. It is libc code and its stores are its own contract. -/
def backtrace (walk : Int → Walked) (m : Mem) (buffer : Nat) (size : Int) : Mem × Int :=
  (storeList m buffer (walk size).stored, (walk size).count)

/-! ## Process-wide capture state -/

/-- Build architecture, as selected by the preprocessor in GetPCFromUContext. -/
inductive Arch where
  | arm | apple | x86_64 | i386 | mips | other
  deriving DecidableEq, Repr

/-- The interrupted machine context handed to the handler. -/
structure UContext where
  pc : Nat
  deriving DecidableEq, Repr

inductive SigHandler where
  | CallstackSignalHandler
  | other (addr : Nat)
  deriving DecidableEq, Repr

inductive SigMask where
  | filled
  | bits (b : Nat)
  deriving DecidableEq, Repr

/-- The registration of a signal: struct sigaction. -/
structure Sigaction where
  sa_sigaction : SigHandler
  sa_flags : Nat
  sa_mask : SigMask
  deriving DecidableEq, Repr

/-- The value of SA_SIGINFO on Linux. It is the flag and, in this source, also
the signal number. -/
def SA_SIGINFO : Nat := 4

/-- Calls into the operating system that GetCallStack and its handler make. -/
inductive Op where
  | sigaction (signr : Nat) (act : Sigaction)
  | ResetEvent
  | pthread_kill (thread : Nat) (signr : Nat) (ok : Bool)
  | Lock (ms : Nat)
  | SetEvent
  deriving DecidableEq, Repr

/-- A run of the handler that its capture did not wait for: the thread it runs
on, its context, and how many statements of the body it has executed; with
none executed it has not yet compared its thread with the target. -/
structure Late where
  thread : Nat
  secret : UContext
  done : Nat
  deriving DecidableEq, Repr

structure State where
  mem : Mem
  /-- The blocks of memory the process can access. -/
  blocks : List (Nat × Nat)
  g_lock : Bool
  g_targetThread : Nat
  g_threadCallstackBuffer : Nat
  g_threadCallstackBufferSize : Int
  g_threadCallstackBufferUsed : Int
  g_callstackCompleted : Bool
  /-- The registration of signal SA_SIGINFO in the process. -/
  disposition : Sigaction
  /-- The operating-system calls made so far. -/
  trace : List Op
  /-- The handler runs that are still going on after their capture timed out. -/
  late : List Late

/-- What happens after pthread_kill: it fails, or the handler runs on the
target and sets the event within the wait, or the wait of 200 ms ends first
while the handler has executed only some of its statements (at most three, the
fourth being SetEvent); the rest of that run goes on after the call, see
lateStep. -/
inductive Delivery where
  | failed
  | completed (secret : UContext)
  | timedOut (secret : UContext) (done : Nat)
  deriving DecidableEq, Repr

structure Env where
  /-- The value of pthread_self() in the caller. -/
  self : Nat
  arch : Arch
  /-- The stack walk of each thread. -/
  walk : Nat → Int → Walked
  delivery : Delivery

/-- How a call of GetCallStack ends: it returns a state and a frame count, or
it spins on the gate for ever, or the process is killed by a memory fault in
the handler. -/
inductive Outcome where
  | returned (st : State) (result : Nat)
  | spins
  | killed

/-- The state and frame count of a call that returned. -/
def Outcome.result (o : Outcome) : Option (State × Nat) :=
  match o with
  | .returned st r => some (st, r)
  | .spins => none
  | .killed => none

/-! ## The source functions -/

def GetPCFromUContext (arch : Arch) (secret : UContext) : Nat :=
  match arch with
  | .arm => secret.pc
  | .apple => secret.pc
  | .x86_64 => secret.pc
  | .i386 => secret.pc
  | .mips => secret.pc
  | .other => 0

/-- The value of movedCount in OverrideStackTopWithPC: the int subtraction
wraps, the minimum is converted to uint32_t. -/
def movedCount (stackSize : Int) (bufferSize : Int) : Nat :=
  toUInt32 (min stackSize (wrapInt32 (bufferSize - 1)))

/-- The byte count of the memmove in OverrideStackTopWithPC. -/
def moveBytes (stackSize : Int) (bufferSize : Int) : Nat :=
  (sizeofPtr * movedCount stackSize bufferSize) % SIZE_MOD

/-- The byte count of the memset in OverrideStackTopWithPC: the difference is
computed in unsigned int, the product in size_t. -/
def zeroBytes (stackSize : Int) (bufferSize : Int) : Nat :=
  (sizeofPtr * toUInt32 (bufferSize - (movedCount stackSize bufferSize : Int) - 1)) % SIZE_MOD

/-- OverrideStackTopWithPC; none when one of its three memory operations
faults. -/
def OverrideStackTopWithPC (arch : Arch) (st : State) (stack : Nat) (stackSize : Int)
    (secret : UContext) : Option State :=
  let moved := movedCount stackSize st.g_threadCallstackBufferSize
  match memmove st.blocks st.mem (stack + 1) stack
      (moveBytes stackSize st.g_threadCallstackBufferSize) with
  | none => none
  | some m1 =>
    match memset st.blocks m1 (stack + 1 + moved) 0
        (zeroBytes stackSize st.g_threadCallstackBufferSize) with
    | none => none
    | some m2 =>
      match store st.blocks m2 stack (GetPCFromUContext arch secret) with
      | none => none
      | some m3 => some { st with mem := m3 }

/-- Statement number i of the body of CallstackSignalHandler; none when it
faults. -/
def handlerStmt (arch : Arch) (walk : Int → Walked) (secret : UContext) (i : Nat)
    (st : State) : Option State :=
  match i with
  | 0 =>
    match memset st.blocks st.mem st.g_threadCallstackBuffer 0
        ((toSizeT st.g_threadCallstackBufferSize * sizeofPtr) % SIZE_MOD) with
    | none => none
    | some m => some { st with mem := m }
  | 1 =>
    let r := backtrace walk st.mem st.g_threadCallstackBuffer st.g_threadCallstackBufferSize
    some { st with mem := r.1, g_threadCallstackBufferUsed := r.2 }
  | 2 => OverrideStackTopWithPC arch st st.g_threadCallstackBuffer
           st.g_threadCallstackBufferSize secret
  | 3 => some { st with g_callstackCompleted := true, trace := st.trace ++ [Op.SetEvent] }
  | _ => some st

/-- The first n statements of the handler body; none when one of them faults. -/
def handlerBody (arch : Arch) (walk : Int → Walked) (secret : UContext) (n : Nat)
    (st : State) : Option State :=
  (List.range n).foldl (fun s i => s.bind (handlerStmt arch walk secret i)) (some st)

/-- The handler, executed by thread self whose stack walk is walk. -/
def CallstackSignalHandler (arch : Arch) (self : Nat) (walk : Int → Walked)
    (secret : UContext) (st : State) : Option State :=
  if self = st.g_targetThread then handlerBody arch walk secret 4 st else some st

/-- The next statement of the oldest handler run that is still going on,
executed on the globals as they are now, which can be those of a later
capture. A run that has executed nothing first compares its thread with the
target and ends when they differ. The result is none when the statement
faults. -/
def lateStep (arch : Arch) (walk : Nat → Int → Walked) (st : State) : Option State :=
  match st.late with
  | [] => some st
  | h :: rest =>
    if h.done = 0 ∧ h.thread ≠ st.g_targetThread then some { st with late := rest }
    else
      match handlerStmt arch (walk h.thread) h.secret h.done st with
      | none => none
      | some s =>
        some { s with late := if 3 ≤ h.done then rest
                               else { thread := h.thread, secret := h.secret,
                                      done := h.done + 1 } :: rest }

/-- The transient registration that GetCallStack installs. -/
def callstack : Sigaction :=
  { sa_sigaction := SigHandler.CallstackSignalHandler, sa_flags := SA_SIGINFO,
    sa_mask := SigMask.filled }

/-- The part of GetCallStack between pthread_kill and the restore; none when
the handler faults. -/
def deliver (env : Env) (threadId : Nat) (st : State) : Option State :=
  match env.delivery with
  | .failed =>
    some { st with trace := st.trace ++ [Op.pthread_kill threadId SA_SIGINFO false] }
  | .completed secret =>
    CallstackSignalHandler env.arch threadId (env.walk threadId) secret
      { st with trace := st.trace ++ [Op.pthread_kill threadId SA_SIGINFO true, Op.Lock 200] }
  | .timedOut secret done =>
    match handlerBody env.arch (env.walk threadId) secret (min done 3)
      { st with trace := st.trace ++ [Op.pthread_kill threadId SA_SIGINFO true, Op.Lock 200] } with
    | none => none
    | some s =>
      some { s with late := s.late ++ [{ thread := threadId, secret := secret,
                                          done := min done 3 }] }

/-- GetCallStack of the Linux build with THUNDER_BACKTRACE, as one call with
the handler it triggers; the statements of a handler run left over from an
earlier capture are not interleaved with it. The outcome is spins when the
gate is held at entry (with no other thread to release it the spin loop does
not end) and killed when the handler faults. -/
def GetCallStack (env : Env) (st : State) (threadId : Nat) (addresses : Nat)
    (bufferSize : Nat) : Outcome :=
  if threadId = 0 ∨ env.self = threadId then
    let r := backtrace (env.walk env.self) st.mem addresses (toInt32 bufferSize)
    Outcome.returned { st with mem := r.1 } (toUInt32 r.2)
  else if st.g_lock then
    Outcome.spins
  else
    let s1 := { st with g_lock := true }
    let original := s1.disposition
    let s2 := { s1 with disposition := callstack,
                        trace := s1.trace ++ [Op.sigaction SA_SIGINFO callstack] }
    let s3 := { s2 with g_targetThread := threadId,
                        g_threadCallstackBuffer := addresses,
                        g_threadCallstackBufferSize := toInt32 bufferSize,
                        g_threadCallstackBufferUsed := 0,
                        g_callstackCompleted := false,
                        trace := s2.trace ++ [Op.ResetEvent] }
    match deliver env threadId s3 with
    | none => Outcome.killed
    | some s4 =>
      let s5 := { s4 with disposition := original,
                          trace := s4.trace ++ [Op.sigaction SA_SIGINFO original] }
      let result := toUInt32 s5.g_threadCallstackBufferUsed
      Outcome.returned { s5 with g_lock := false } result

/-! ## Sample inputs -/

/-- A process whose accessible memory is the four slots from 100 on, the
buffer of the sample captures. -/
def sampleState : State :=
  { mem := fun a => a + 1000, blocks := [(100, 4)], g_lock := false, g_targetThread := 0,
    g_threadCallstackBuffer := 0, g_threadCallstackBufferSize := 0,
    g_threadCallstackBufferUsed := 0, g_callstackCompleted := true,
    disposition := { sa_sigaction := SigHandler.other 77, sa_flags := 0, sa_mask := SigMask.bits 0 },
    trace := [], late := [] }

/-- A stack walk that finds the two frames 11 and 12 (fewer when size is
smaller, none when it is negative). -/
def sampleWalk : Nat → Int → Walked := fun _ size =>
  { stored := [11, 12].take size.toNat, count := (([11, 12].take size.toNat).length : Int) }

def sampleEnv (d : Delivery) : Env :=
  { self := 1, arch := Arch.x86_64, walk := sampleWalk, delivery := d }

/-- The sample state after GetCallStack has armed a capture of thread 2 into a
buffer of the given size at slot 100. -/
def armedState (size : Int) : State :=
  { sampleState with g_lock := true, g_targetThread := 2, g_threadCallstackBuffer := 100,
                     g_threadCallstackBufferSize := size, g_callstackCompleted := false }

/-- The sample state of a process that can access the 2 ^ 33 slots from 0 on. -/
def wideState : State :=
  { sampleState with blocks := [(0, 2 ^ 33)] }

/-- The state of GetCallStack on another thread before pthread_kill: the gate
taken, the handler installed, the shared variables set and the event reset. -/
def armed (st : State) (threadId addresses bufferSize : Nat) : State :=
  { st with g_lock := true, disposition := callstack,
            g_targetThread := threadId,
            g_threadCallstackBuffer := addresses,
            g_threadCallstackBufferSize := toInt32 bufferSize,
            g_threadCallstackBufferUsed := 0,
            g_callstackCompleted := false,
            trace := st.trace ++ [Op.sigaction SA_SIGINFO callstack] ++ [Op.ResetEvent] }

/-- Whether the call ended with the process killed. -/
def Outcome.isKilled (o : Outcome) : Bool :=
  match o with
  | .killed => true
  | _ => false

/-- The state armedState 0 in the process of wideState. -/
def wideArmed : State :=
  { armedState 0 with blocks := [(0, 2 ^ 33)] }

/-! ## htonll and ntohll -/
/-- The first byte in memory of a 32-bit int: what the source reads through
the char pointer to decide the byte order of the host. -/
def firstByteOfInt (littleEndian : Bool) (x : Nat) : Nat :=
  if littleEndian then x % 256 else x / 2 ^ 24 % 256

/-- The four bytes of a 32-bit value in reversed order. -/
def bswap32 (x : Nat) : Nat :=
  x % 256 * 2 ^ 24 + x / 2 ^ 8 % 256 * 2 ^ 16 + x / 2 ^ 16 % 256 * 2 ^ 8 + x / 2 ^ 24 % 256

/-- The libc htonl: network order is big-endian. -/
def htonl (littleEndian : Bool) (x : Nat) : Nat :=
  if littleEndian then bswap32 x else x % 2 ^ 32

/-- The libc ntohl. -/
def ntohl (littleEndian : Bool) (x : Nat) : Nat :=
  if littleEndian then bswap32 x else x % 2 ^ 32

def htonll (littleEndian : Bool) (value : Nat) : Nat :=
  let num := 42
  if firstByteOfInt littleEndian num = num then
    let high_part := htonl littleEndian ((value >>> 32) % 2 ^ 32)
    let low_part := htonl littleEndian ((value &&& 0xFFFFFFFF) % 2 ^ 32)
    ((low_part <<< 32) % 2 ^ 64) ||| high_part
  else
    value

def ntohll (littleEndian : Bool) (value : Nat) : Nat :=
  let num := 42
  if firstByteOfInt littleEndian num = num then
    let high_part := ntohl littleEndian ((value >>> 32) % 2 ^ 32)
    let low_part := ntohl littleEndian ((value &&& 0xFFFFFFFF) % 2 ^ 32)
    ((low_part <<< 32) % 2 ^ 64) ||| high_part
  else
    value

/-- The eight bytes of a 64-bit value, least significant first. -/
def bytes64 (v : Nat) : List Nat :=
  (List.range 8).map (fun i => v / 256 ^ i % 256)

/-- The value whose bytes, least significant first, are the given ones. -/
def ofBytes (bs : List Nat) : Nat :=
  bs.foldr (fun b acc => b + 256 * acc) 0

/-! ## Core::Format -/

namespace Core

/-- The C library vsnprintf as toString uses it. The parameter render gives
the text the format and the arguments produce, or none when the conversion
fails. The result is the text stored in a buffer of the given size (none when
the size is 0, the terminator not counted) and the value returned: the length
of the whole text, or a negative number on failure. -/
def vsnprintf {α : Type} (render : String → α → Option String) (size : Nat) (format : String)
    (ap : α) : Option String × Int :=
  match render format ap with
  | none => (none, -1)
  | some s => (if size = 0 then none else some (String.mk (s.data.take (size - 1))),
               (s.length : Int))

/-- The std::string resize: cut, or padded with the null character. -/
def resize (dst : String) (n : Nat) : String :=
  String.mk ((dst.data ++ List.replicate n (Char.ofNat 0)).take n)

/-- The value of dst after toString. -/
def toString {α : Type} (render : String → α → Option String) (dst : String) (format : String)
    (ap : α) : String :=
  let length := (vsnprintf render 0 format ap).2
  if length > 0 then
    let dst1 := resize dst length.toNat
    match (vsnprintf render (dst1.length + 1) format ap).1 with
    | some out => out
    | none => dst1
  else
    "Format error! format: " ++ format

/-- The overload Format(string& dst, const TCHAR format[], ...): the value of dst. -/
def FormatDst {α : Type} (render : String → α → Option String) (dst : String) (format : String)
    (ap : α) : String :=
  toString render dst format ap

/-- The overload string Format(const TCHAR format[], ...). -/
def Format {α : Type} (render : String → α → Option String) (format : String) (ap : α) : String :=
  toString render "" format ap

/-- The overload Format(string& dst, const TCHAR format[], va_list ap): the value of dst. -/
def FormatVa {α : Type} (render : String → α → Option String) (dst : String) (format : String)
    (ap : α) : String :=
  toString render dst format ap

/-- A formatter for formats without a conversion specification: the text is
the format itself. -/
def plainRender (format : String) (_ap : Unit) : Option String :=
  if '%' ∈ format.data then none else some format

end Core

/-! ## Threads contending for the gate -/

/-- Where a thread is in the capture of another thread. -/
inductive Loc where
  /-- Not in GetCallStack. -/
  | idle
  /-- In the spin loop, before an exchange that returns false. -/
  | spinning
  /-- Past the exchange, before the first sigaction. -/
  | acquired
  /-- Past the first sigaction, the transient handler installed: arming the
  shared buffer, pthread_kill and the wait happen here. -/
  | installed
  /-- Past the second sigaction, before the store that clears the gate. -/
  | restored
  deriving DecidableEq, Repr

/-- The shared gate and registration, and for every thread its place in
GetCallStack and its local variable original. -/
structure Sys where
  g_lock : Bool
  disposition : Sigaction
  loc : Nat → Loc
  original : Nat → Sigaction

/-- One atomic step of thread t. -/
def step (s : Sys) (t : Nat) : Sys :=
  match s.loc t with
  | .idle => { s with loc := Function.update s.loc t Loc.spinning }
  | .spinning =>
    if s.g_lock then { s with g_lock := true }
    else { s with g_lock := true, loc := Function.update s.loc t Loc.acquired }
  | .acquired =>
    { s with disposition := callstack,
             original := Function.update s.original t s.disposition,
             loc := Function.update s.loc t Loc.installed }
  | .installed =>
    { s with disposition := s.original t, loc := Function.update s.loc t Loc.restored }
  | .restored =>
    { s with g_lock := false, loc := Function.update s.loc t Loc.idle }

/-- The state after the threads of the schedule have each taken a step, in order. -/
def run (s : Sys) (sched : List Nat) : Sys :=
  sched.foldl step s

/-- No thread in GetCallStack, the gate free. -/
def initSys (d : Sigaction) : Sys :=
  { g_lock := false, disposition := d, loc := fun _ => Loc.idle, original := fun _ => d }

/-- Between acquiring the gate and releasing it. -/
def holdsGate (l : Loc) : Bool :=
  match l with
  | .acquired => true
  | .installed => true
  | .restored => true
  | _ => false

/-- The invariant of the gate: at most one thread holds it, and it is set
while a thread holds it. -/
def gateInv (s : Sys) : Prop :=
  (∀ i j, holdsGate (s.loc i) = true → holdsGate (s.loc j) = true → i = j) ∧
  (∀ i, holdsGate (s.loc i) = true → s.g_lock = true)


/-! ## Properties of the capture -/

theorem toUInt32_eq (x : Int) (h0 : 0 ≤ x) (h1 : x < 2 ^ 32) : toUInt32 x = x.toNat := by
  unfold toUInt32
  omega

theorem toUInt32_le (x : Int) (h0 : 0 ≤ x) : (toUInt32 x : Int) ≤ x := by
  unfold toUInt32
  omega

theorem toInt32_le (C : Nat) (hC : C < 2 ^ 32) : toInt32 C ≤ (C : Int) := by
  unfold toInt32
  split <;> omega

theorem wrapInt32_eq (x : Int) (h0 : -2 ^ 31 ≤ x) (h1 : x < 2 ^ 31) : wrapInt32 x = x := by
  unfold wrapInt32 toInt32 toUInt32
  split <;> omega

theorem movedCount_eq (C : Nat) (hC1 : 1 ≤ C) (hC2 : C < 2 ^ 31) :
    movedCount (C : Int) (C : Int) = C - 1 := by
  unfold movedCount
  rw [wrapInt32_eq _ (by omega) (by omega)]
  unfold toUInt32
  omega

theorem moveBytes_eq (C : Nat) (hC1 : 1 ≤ C) (hC2 : C < 2 ^ 31) :
    moveBytes (C : Int) (C : Int) = sizeofPtr * (C - 1) := by
  unfold moveBytes
  rw [movedCount_eq C hC1 hC2]
  unfold sizeofPtr SIZE_MOD
  omega

theorem zeroBytes_eq (C : Nat) (hC1 : 1 ≤ C) (hC2 : C < 2 ^ 31) :
    zeroBytes (C : Int) (C : Int) = 0 := by
  unfold zeroBytes
  rw [movedCount_eq C hC1 hC2]
  unfold toUInt32 sizeofPtr SIZE_MOD
  omega

/-- A range inside an accessible range is accessible. -/
theorem accessible_sub (blocks : List (Nat × Nat)) (p n q k : Nat)
    (h : accessible blocks p n = true) (hq : p ≤ q) (hk : q + k ≤ p + n) :
    accessible blocks q k = true := by
  unfold accessible at h ⊢
  simp only [Bool.or_eq_true, beq_iff_eq, List.any_eq_true, Bool.and_eq_true,
    decide_eq_true_eq] at h ⊢
  rcases h with h | ⟨b, hb, h1, h2⟩
  · left; omega
  · right; exact ⟨b, hb, by omega, by omega⟩

theorem accessible_zero (blocks : List (Nat × Nat)) (p : Nat) : accessible blocks p 0 = true := by
  simp [accessible]

theorem handlerBody_zero (arch : Arch) (walk : Int → Walked) (secret : UContext) (st : State) :
    handlerBody arch walk secret 0 st = some st := rfl

theorem handlerBody_succ (arch : Arch) (walk : Int → Walked) (secret : UContext) (n : Nat)
    (st : State) :
    handlerBody arch walk secret (n + 1) st
      = (handlerBody arch walk secret n st).bind (handlerStmt arch walk secret n) := by
  simp [handlerBody, List.range_succ]

/-- What OverrideStackTopWithPC leaves as it was. -/
theorem OverrideStackTopWithPC_frame (arch : Arch) (st : State) (stack : Nat) (stackSize : Int)
    (secret : UContext) (s : State)
    (h : OverrideStackTopWithPC arch st stack stackSize secret = some s) :
    ∃ m, s = { st with mem := m } := by
  unfold OverrideStackTopWithPC at h
  simp only [] at h
  split at h
  · exact Option.noConfusion h
  · split at h
    · exact Option.noConfusion h
    · split at h
      · exact Option.noConfusion h
      · rename_i m3 _
        exact ⟨m3, (Option.some.inj h).symm⟩

/-- The fields no handler statement assigns. -/
theorem handlerStmt_frame (arch : Arch) (walk : Int → Walked) (secret : UContext) (i : Nat)
    (st s : State) (h : handlerStmt arch walk secret i st = some s) :
    s.g_lock = st.g_lock ∧
    s.disposition = st.disposition ∧
    s.g_targetThread = st.g_targetThread ∧
    s.g_threadCallstackBuffer = st.g_threadCallstackBuffer ∧
    s.g_threadCallstackBufferSize = st.g_threadCallstackBufferSize ∧
    s.blocks = st.blocks ∧
    s.late = st.late := by
  unfold handlerStmt at h
  split at h
  · split at h
    · exact Option.noConfusion h
    · cases Option.some.inj h
      simp
  · cases Option.some.inj h
    simp
  · obtain ⟨m, rfl⟩ := OverrideStackTopWithPC_frame _ _ _ _ _ _ h
    simp
  · cases Option.some.inj h
    simp
  · cases Option.some.inj h
    simp

theorem handlerBody_frame (arch : Arch) (walk : Int → Walked) (secret : UContext) (n : Nat)
    (st s : State) (h : handlerBody arch walk secret n st = some s) :
    s.g_lock = st.g_lock ∧
    s.disposition = st.disposition ∧
    s.g_targetThread = st.g_targetThread ∧
    s.g_threadCallstackBuffer = st.g_threadCallstackBuffer ∧
    s.g_threadCallstackBufferSize = st.g_threadCallstackBufferSize ∧
    s.blocks = st.blocks ∧
    s.late = st.late := by
  induction n generalizing s with
  | zero =>
    cases Option.some.inj h
    simp
  | succ k ih =>
    rw [handlerBody_succ] at h
    obtain ⟨s1, hs1, hs⟩ := Option.bind_eq_some.mp h
    obtain ⟨h1, h2, h3, h4, h5, h6, h7⟩ := handlerStmt_frame arch walk secret k s1 s hs
    obtain ⟨i1, i2, i3, i4, i5, i6, i7⟩ := ih s1 hs1
    exact ⟨h1.trans i1, h2.trans i2, h3.trans i3, h4.trans i4, h5.trans i5, h6.trans i6,
      h7.trans i7⟩

/-- The used count after the first n statements: the walk's count once the
second statement has run. -/
theorem handlerBody_used (arch : Arch) (walk : Int → Walked) (secret : UContext) (n : Nat)
    (st s : State) (h : handlerBody arch walk secret n st = some s) :
    s.g_threadCallstackBufferUsed
      = if 2 ≤ n then (walk st.g_threadCallstackBufferSize).count
        else st.g_threadCallstackBufferUsed := by
  induction n generalizing s with
  | zero =>
    cases Option.some.inj h
    simp
  | succ k ih =>
    rw [handlerBody_succ] at h
    obtain ⟨s1, hs1, hs⟩ := Option.bind_eq_some.mp h
    have hf := (handlerBody_frame arch walk secret k st s1 hs1).2.2.2.2.1
    have ih1 := ih s1 hs1
    match k with
    | 0 =>
      simp only [handlerStmt] at hs
      split at hs
      · exact Option.noConfusion hs
      · cases Option.some.inj hs
        simpa using ih1
    | 1 =>
      simp only [handlerStmt, backtrace] at hs
      cases Option.some.inj hs
      simp [hf]
    | 2 =>
      simp only [handlerStmt] at hs
      obtain ⟨m, rfl⟩ := OverrideStackTopWithPC_frame _ _ _ _ _ _ hs
      simpa using ih1
    | 3 =>
      simp only [handlerStmt] at hs
      cases Option.some.inj hs
      simpa using ih1
    | j + 4 =>
      simp only [handlerStmt] at hs
      cases Option.some.inj hs
      simpa using ih1

/-- The operating-system calls of the first n statements: SetEvent, by the
fourth statement only. -/
theorem handlerBody_trace (arch : Arch) (walk : Int → Walked) (secret : UContext) (n : Nat)
    (st s : State) (h : handlerBody arch walk secret n st = some s) :
    s.trace = if 4 ≤ n then st.trace ++ [Op.SetEvent] else st.trace := by
  induction n generalizing s with
  | zero =>
    cases Option.some.inj h
    simp
  | succ k ih =>
    rw [handlerBody_succ] at h
    obtain ⟨s1, hs1, hs⟩ := Option.bind_eq_some.mp h
    have ih1 := ih s1 hs1
    match k with
    | 0 =>
      simp only [handlerStmt] at hs
      split at hs
      · exact Option.noConfusion hs
      · cases Option.some.inj hs
        simpa using ih1
    | 1 =>
      simp only [handlerStmt, backtrace] at hs
      cases Option.some.inj hs
      simpa using ih1
    | 2 =>
      simp only [handlerStmt] at hs
      obtain ⟨m, rfl⟩ := OverrideStackTopWithPC_frame _ _ _ _ _ _ hs
      simpa using ih1
    | 3 =>
      simp only [handlerStmt] at hs
      cases Option.some.inj hs
      simpa using ih1
    | j + 4 =>
      simp only [handlerStmt] at hs
      cases Option.some.inj hs
      simpa using ih1

/-- With a size between 1 and INT_MAX and the buffer accessible,
OverrideStackTopWithPC, called as the handler calls it, does not fault. -/
theorem OverrideStackTopWithPC_some (arch : Arch) (st : State) (secret : UContext) (C : Nat)
    (hC1 : 1 ≤ C) (hC2 : C < 2 ^ 31) (hsize : st.g_threadCallstackBufferSize = (C : Int))
    (stack : Nat) (hacc : accessible st.blocks stack C = true) :
    ∃ s, OverrideStackTopWithPC arch st stack st.g_threadCallstackBufferSize secret = some s := by
  have e1 : sizeofPtr * (C - 1) / sizeofPtr = C - 1 := by unfold sizeofPtr; omega
  have e2 : (0 : Nat) / sizeofPtr = 0 := by unfold sizeofPtr; omega
  have a1 : accessible st.blocks (stack + 1) (C - 1) = true :=
    accessible_sub _ _ _ _ _ hacc (by omega) (by omega)
  have a2 : accessible st.blocks stack (C - 1) = true :=
    accessible_sub _ _ _ _ _ hacc (by omega) (by omega)
  have a3 : accessible st.blocks stack 1 = true :=
    accessible_sub _ _ _ _ _ hacc (by omega) (by omega)
  simp only [OverrideStackTopWithPC, hsize, moveBytes_eq C hC1 hC2, zeroBytes_eq C hC1 hC2,
    movedCount_eq C hC1 hC2, memmove, memset, store, e1, e2, a1, a2, a3, accessible_zero,
    and_self, if_true]
  exact ⟨_, rfl⟩

theorem handlerStmt_some (arch : Arch) (walk : Int → Walked) (secret : UContext) (i : Nat)
    (st : State) (C : Nat) (hC1 : 1 ≤ C) (hC2 : C < 2 ^ 31)
    (hsize : st.g_threadCallstackBufferSize = (C : Int))
    (hacc : accessible st.blocks st.g_threadCallstackBuffer C = true) :
    ∃ s, handlerStmt arch walk secret i st = some s := by
  unfold handlerStmt
  split
  · have e : toSizeT (C : Int) * sizeofPtr % SIZE_MOD / sizeofPtr = C := by
      unfold toSizeT sizeofPtr SIZE_MOD
      omega
    simp only [hsize, memset, e, hacc, if_true]
    exact ⟨_, rfl⟩
  · exact ⟨_, rfl⟩
  · exact OverrideStackTopWithPC_some arch st secret C hC1 hC2 hsize _ hacc
  · exact ⟨_, rfl⟩
  · exact ⟨_, rfl⟩

/-- With a size between 1 and INT_MAX and the buffer accessible, no statement
of the handler faults. -/
theorem handlerBody_some (arch : Arch) (walk : Int → Walked) (secret : UContext) (n : Nat)
    (st : State) (C : Nat) (hC1 : 1 ≤ C) (hC2 : C < 2 ^ 31)
    (hsize : st.g_threadCallstackBufferSize = (C : Int))
    (hacc : accessible st.blocks st.g_threadCallstackBuffer C = true) :
    ∃ s, handlerBody arch walk secret n st = some s := by
  induction n with
  | zero => exact ⟨st, rfl⟩
  | succ k ih =>
    obtain ⟨s1, hs1⟩ := ih
    obtain ⟨_, _, _, hb, hs, hbl, _⟩ := handlerBody_frame arch walk secret k st s1 hs1
    obtain ⟨s, hs2⟩ := handlerStmt_some arch walk secret k s1 C hC1 hC2 (hs.trans hsize)
      (by rw [hbl, hb]; exact hacc)
    exact ⟨s, by rw [handlerBody_succ, hs1]; exact hs2⟩

theorem deliver_frame (env : Env) (threadId : Nat) (st s : State)
    (h : deliver env threadId st = some s) :
    s.g_lock = st.g_lock ∧ s.disposition = st.disposition := by
  unfold deliver at h
  split at h
  · cases Option.some.inj h
    simp
  · unfold CallstackSignalHandler at h
    split at h
    · have hf := handlerBody_frame _ _ _ _ _ _ h
      exact ⟨hf.1, hf.2.1⟩
    · cases Option.some.inj h
      simp
  · split at h
    · exact Option.noConfusion h
    · rename_i s1 hs1
      have hf := handlerBody_frame _ _ _ _ _ _ hs1
      cases Option.some.inj h
      exact ⟨hf.1, hf.2.1⟩

theorem deliver_used (env : Env) (threadId : Nat) (st s : State)
    (h : deliver env threadId st = some s) :
    s.g_threadCallstackBufferUsed = st.g_threadCallstackBufferUsed ∨
    s.g_threadCallstackBufferUsed
      = (env.walk threadId st.g_threadCallstackBufferSize).count := by
  unfold deliver at h
  split at h
  · cases Option.some.inj h
    left; rfl
  · unfold CallstackSignalHandler at h
    split at h
    · right
      rw [handlerBody_used _ _ _ _ _ _ h]
      simp
    · cases Option.some.inj h
      left; rfl
  · split at h
    · exact Option.noConfusion h
    · rename_i s1 hs1
      have hu := handlerBody_used _ _ _ _ _ _ hs1
      cases Option.some.inj h
      simp only [] at hu ⊢
      rw [hu]
      split
      · right; rfl
      · left; rfl

theorem deliver_trace (env : Env) (threadId : Nat) (st s : State)
    (ht : st.g_targetThread = threadId) (h : deliver env threadId st = some s) :
    s.trace
      = match env.delivery with
        | .failed => st.trace ++ [Op.pthread_kill threadId SA_SIGINFO false]
        | .completed _ =>
          st.trace ++ [Op.pthread_kill threadId SA_SIGINFO true, Op.Lock 200, Op.SetEvent]
        | .timedOut _ _ => st.trace ++ [Op.pthread_kill threadId SA_SIGINFO true, Op.Lock 200] := by
  unfold deliver at h
  split at h
  · cases Option.some.inj h
    rfl
  · simp only [CallstackSignalHandler, ht, if_true] at h
    rw [handlerBody_trace _ _ _ _ _ _ h]
    simp
  · split at h
    · exact Option.noConfusion h
    · rename_i s1 hs1
      have hu := handlerBody_trace _ _ _ _ _ _ hs1
      cases Option.some.inj h
      simp only [] at hu ⊢
      rw [hu]
      have : ¬ (4 ≤ min ‹Nat› 3) := by omega
      simp [this]

/-- When pthread_kill fails, or the size is between 1 and INT_MAX and the
buffer accessible, the part between pthread_kill and the restore does not
fault. -/
theorem deliver_some (env : Env) (threadId : Nat) (st : State) (C : Nat)
    (h : env.delivery = Delivery.failed ∨
      (1 ≤ C ∧ C < 2 ^ 31 ∧ st.g_threadCallstackBufferSize = (C : Int) ∧
        accessible st.blocks st.g_threadCallstackBuffer C = true)) :
    ∃ s, deliver env threadId st = some s := by
  unfold deliver
  split
  · exact ⟨_, rfl⟩
  · rename_i secret hd
    rcases h with h | ⟨h1, h2, h3, h4⟩
    · rw [hd] at h; exact Delivery.noConfusion h
    · unfold CallstackSignalHandler
      split
      · exact handlerBody_some _ _ _ _ _ C h1 h2 h3 h4
      · exact ⟨_, rfl⟩
  · rename_i secret done hd
    rcases h with h | ⟨h1, h2, h3, h4⟩
    · rw [hd] at h; exact Delivery.noConfusion h
    · obtain ⟨s1, hs1⟩ := handlerBody_some env.arch (env.walk threadId) secret (min done 3)
        { st with trace := st.trace ++ [Op.pthread_kill threadId SA_SIGINFO true, Op.Lock 200] }
        C h1 h2 h3 h4
      rw [hs1]
      exact ⟨_, rfl⟩

/-- The capture of the calling thread, written out. -/
theorem GetCallStack_self_eq (env : Env) (st : State) (threadId addresses bufferSize : Nat)
    (hself : threadId = 0 ∨ env.self = threadId) :
    GetCallStack env st threadId addresses bufferSize
      = Outcome.returned
          { st with mem := storeList st.mem addresses
                             (env.walk env.self (toInt32 bufferSize)).stored }
          (toUInt32 (env.walk env.self (toInt32 bufferSize)).count) := by
  simp [GetCallStack, hself, backtrace]

/-- The capture of another thread with the gate free, written out. -/
theorem GetCallStack_other_eq (env : Env) (st : State) (threadId addresses bufferSize : Nat)
    (hother : ¬ (threadId = 0 ∨ env.self = threadId)) (hfree : st.g_lock = false) :
    GetCallStack env st threadId addresses bufferSize
      = match deliver env threadId (armed st threadId addresses bufferSize) with
        | none => Outcome.killed
        | some s4 =>
          Outcome.returned
            { s4 with disposition := st.disposition,
                      trace := s4.trace ++ [Op.sigaction SA_SIGINFO st.disposition],
                      g_lock := false }
            (toUInt32 s4.g_threadCallstackBufferUsed) := by
  simp only [GetCallStack, hother, hfree, if_false, armed]
  rfl

/-- A capture of another thread with the gate free does not spin, and when it
returns, the registration and the gate are as before the call. -/
theorem GetCallStack_other (env : Env) (st : State) (threadId addresses bufferSize : Nat)
    (hother : ¬ (threadId = 0 ∨ env.self = threadId)) (hfree : st.g_lock = false) :
    GetCallStack env st threadId addresses bufferSize ≠ Outcome.spins ∧
    ∀ st' r, GetCallStack env st threadId addresses bufferSize = Outcome.returned st' r →
      ∃ s4, deliver env threadId (armed st threadId addresses bufferSize) = some s4 ∧
        st'.disposition = st.disposition ∧ st'.g_lock = false ∧
        st'.trace = s4.trace ++ [Op.sigaction SA_SIGINFO st.disposition] ∧
        r = toUInt32 s4.g_threadCallstackBufferUsed ∧
        st'.mem = s4.mem ∧ st'.late = s4.late := by
  rw [GetCallStack_other_eq env st threadId addresses bufferSize hother hfree]
  cases hd : deliver env threadId (armed st threadId addresses bufferSize) with
  | none =>
    refine ⟨fun h => Outcome.noConfusion h, ?_⟩
    intro st' r h
    exact Outcome.noConfusion h
  | some s4 =>
    refine ⟨fun h => Outcome.noConfusion h, ?_⟩
    intro st' r h
    simp only [Outcome.returned.injEq] at h
    obtain ⟨h1, h2⟩ := h
    subst h1
    exact ⟨s4, rfl, rfl, rfl, rfl, h2.symm, rfl, rfl⟩

/-- When pthread_kill fails, or the capacity is between 1 and INT_MAX and the
caller's buffer accessible, a capture of another thread with the gate free
returns. -/
theorem GetCallStack_other_returns (env : Env) (st : State) (threadId addresses C : Nat)
    (hother : ¬ (threadId = 0 ∨ env.self = threadId)) (hfree : st.g_lock = false)
    (h : env.delivery = Delivery.failed ∨
      (1 ≤ C ∧ C < 2 ^ 31 ∧ accessible st.blocks addresses C = true)) :
    ∃ st' r, GetCallStack env st threadId addresses C = Outcome.returned st' r := by
  rw [GetCallStack_other_eq env st threadId addresses C hother hfree]
  have hs : ∃ s, deliver env threadId (armed st threadId addresses C) = some s := by
    apply deliver_some env threadId _ C
    rcases h with h | ⟨h1, h2, h3⟩
    · exact Or.inl h
    · refine Or.inr ⟨h1, h2, ?_, h3⟩
      have e : toInt32 C = (C : Int) := by
        unfold toInt32
        split <;> omega
      simpa [armed] using e
  obtain ⟨s, hs⟩ := hs
  rw [hs]
  exact ⟨_, _, rfl⟩

/-- C1: the frame count GetCallStack returns is at most the capacity C of the
caller's buffer, for every C that a uint32_t holds, on the calling thread
(threadId 0 or the caller's own id) and through the signal handler, whether
the handler completed, the wait timed out or the signal could not be
delivered, when the stack walk returns a count between 0 and the size it is
given (0 when that size, the capacity converted to int, is negative). The
call returns when the target is the caller, and, with the gate free, when
pthread_kill fails or the capacity is between 1 and INT_MAX and the buffer is
accessible memory; through the handler with another capacity the process can
be killed by a memory fault and then no count is returned. The call is taken
with the handler it triggers: no statement of a handler run left over from an
earlier capture that timed out is interleaved with it. -/
theorem GetCallStack_count_le_capacity (env : Env) (st : State) (threadId addresses C : Nat)
    (hC : C < 2 ^ 32)
    (hwalk : ∀ t, 0 ≤ (env.walk t (toInt32 C)).count ∧
      (env.walk t (toInt32 C)).count ≤ max (toInt32 C) 0) :
    (∀ st' r, GetCallStack env st threadId addresses C = Outcome.returned st' r → r ≤ C) ∧
    ((threadId = 0 ∨ env.self = threadId ∨
        (st.g_lock = false ∧ (env.delivery = Delivery.failed ∨
          (1 ≤ C ∧ C < 2 ^ 31 ∧ accessible st.blocks addresses C = true)))) →
      ∃ st' r, GetCallStack env st threadId addresses C = Outcome.returned st' r) := by
  have hle := toInt32_le C hC
  have hcount : ∀ t, toUInt32 (env.walk t (toInt32 C)).count ≤ C := by
    intro t
    obtain ⟨h0, h1⟩ := hwalk t
    have h2 := toUInt32_le _ h0
    omega
  constructor
  · intro st' r h
    by_cases hself : threadId = 0 ∨ env.self = threadId
    · rw [GetCallStack_self_eq env st threadId addresses C hself] at h
      simp only [Outcome.returned.injEq] at h
      rw [← h.2]
      exact hcount env.self
    · by_cases hl : st.g_lock = true
      · simp [GetCallStack, hself, hl] at h
      · have hfree : st.g_lock = false := by simpa using hl
        obtain ⟨s4, hs4, _, _, _, hr, _, _⟩ :=
          (GetCallStack_other env st threadId addresses C hself hfree).2 st' r h
        rw [hr]
        rcases deliver_used env threadId _ s4 hs4 with hu | hu
        · rw [hu]
          simp [armed, toUInt32]
        · rw [hu]
          simpa [armed] using hcount threadId
  · intro h
    by_cases hself : threadId = 0 ∨ env.self = threadId
    · exact ⟨_, _, GetCallStack_self_eq env st threadId addresses C hself⟩
    · have h' : st.g_lock = false ∧ (env.delivery = Delivery.failed ∨
          (1 ≤ C ∧ C < 2 ^ 31 ∧ accessible st.blocks addresses C = true)) := by
        rcases h with h | h | h
        · exact absurd (Or.inl h) hself
        · exact absurd (Or.inr h) hself
        · exact h
      exact GetCallStack_other_returns env st threadId addresses C hself h'.1 h'.2

theorem GetCallStack_count_le_capacity_witness :
    (4 : Nat) < 2 ^ 32 ∧
    (∀ t, 0 ≤ ((sampleEnv (Delivery.completed ⟨99⟩)).walk t (toInt32 4)).count ∧
      ((sampleEnv (Delivery.completed ⟨99⟩)).walk t (toInt32 4)).count ≤ max (toInt32 4) 0) ∧
    ((∀ st' r, GetCallStack (sampleEnv (Delivery.completed ⟨99⟩)) sampleState 2 100 4
        = Outcome.returned st' r → r ≤ 4) ∧
     ((2 = 0 ∨ (sampleEnv (Delivery.completed ⟨99⟩)).self = 2 ∨
        (sampleState.g_lock = false ∧
          ((sampleEnv (Delivery.completed ⟨99⟩)).delivery = Delivery.failed ∨
           (1 ≤ 4 ∧ 4 < 2 ^ 31 ∧ accessible sampleState.blocks 100 4 = true)))) →
        ∃ st' r, GetCallStack (sampleEnv (Delivery.completed ⟨99⟩)) sampleState 2 100 4
          = Outcome.returned st' r)) :=
  ⟨by decide, fun _ => by
      show 0 ≤ (sampleWalk 0 (toInt32 4)).count ∧ (sampleWalk 0 (toInt32 4)).count ≤ max (toInt32 4) 0
      decide,
   GetCallStack_count_le_capacity (sampleEnv (Delivery.completed ⟨99⟩)) sampleState 2 100 4
     (by decide) (fun _ => by
      show 0 ≤ (sampleWalk 0 (toInt32 4)).count ∧ (sampleWalk 0 (toInt32 4)).count ≤ max (toInt32 4) 0
      decide)⟩

/-- C4: when threadId is 0 or the calling thread, GetCallStack returns the
count of the direct stack walk into the caller's buffer, and the state after
the call is the state before it with only the memory the walk wrote changed:
the gate flag, the signal registration, the target thread, the shared buffer
pointer, size and used count, the completion event and the list of
operating-system calls (no sigaction, no pthread_kill, no event call) are as
before, whatever the delivery of a signal would have been. -/
theorem GetCallStack_self_direct (env : Env) (st : State) (threadId addresses bufferSize : Nat)
    (hself : threadId = 0 ∨ env.self = threadId) :
    GetCallStack env st threadId addresses bufferSize
      = Outcome.returned
          { st with mem := storeList st.mem addresses
                             (env.walk env.self (toInt32 bufferSize)).stored }
          (toUInt32 (env.walk env.self (toInt32 bufferSize)).count) ∧
    (∀ st' r, GetCallStack env st threadId addresses bufferSize = Outcome.returned st' r →
      r = toUInt32 (backtrace (env.walk env.self) st.mem addresses (toInt32 bufferSize)).2 ∧
      st'.mem = (backtrace (env.walk env.self) st.mem addresses (toInt32 bufferSize)).1 ∧
      st'.g_lock = st.g_lock ∧
      st'.disposition = st.disposition ∧
      st'.g_targetThread = st.g_targetThread ∧
      st'.g_threadCallstackBuffer = st.g_threadCallstackBuffer ∧
      st'.g_threadCallstackBufferSize = st.g_threadCallstackBufferSize ∧
      st'.g_threadCallstackBufferUsed = st.g_threadCallstackBufferUsed ∧
      st'.g_callstackCompleted = st.g_callstackCompleted ∧
      st'.trace = st.trace) ∧
    (∀ d, GetCallStack { env with delivery := d } st threadId addresses bufferSize
            = GetCallStack env st threadId addresses bufferSize) := by
  refine ⟨?_, ?_, ?_⟩
  · simp [GetCallStack, hself, backtrace]
  · intro st' r h
    simp only [GetCallStack, hself, if_true, Outcome.returned.injEq] at h
    obtain ⟨h1, h2⟩ := h
    subst h1
    subst h2
    simp
  · intro d
    simp [GetCallStack, hself]

theorem GetCallStack_self_direct_witness :
    ((0 : Nat) = 0 ∨ (sampleEnv Delivery.failed).self = 0) ∧
    (GetCallStack (sampleEnv Delivery.failed) sampleState 0 100 4).result.map Prod.snd = some 2 :=
  ⟨by decide, by
    rw [(GetCallStack_self_direct (sampleEnv Delivery.failed) sampleState 0 100 4
      (Or.inl rfl)).1]
    decide⟩

/-- C5: when pthread_kill fails in a capture of another thread, GetCallStack
makes no call of Lock on the completion event (its operating-system calls are
the install, ResetEvent, the failed pthread_kill and the restore), returns the
frame count 0 and leaves the registration of the signal as it was before the
call. -/
theorem GetCallStack_kill_failed (env : Env) (st : State) (threadId addresses bufferSize : Nat)
    (hother : ¬ (threadId = 0 ∨ env.self = threadId)) (hfree : st.g_lock = false)
    (hfail : env.delivery = Delivery.failed) :
    ∃ st', GetCallStack env st threadId addresses bufferSize = Outcome.returned st' 0 ∧
      st'.disposition = st.disposition ∧
      st'.trace = st.trace ++ [Op.sigaction SA_SIGINFO callstack, Op.ResetEvent,
        Op.pthread_kill threadId SA_SIGINFO false, Op.sigaction SA_SIGINFO st.disposition] ∧
      (∀ ms, Op.Lock ms ∉ [Op.sigaction SA_SIGINFO callstack, Op.ResetEvent,
        Op.pthread_kill threadId SA_SIGINFO false, Op.sigaction SA_SIGINFO st.disposition]) := by
  simp only [GetCallStack, hother, hfree, if_false, deliver, hfail]
  refine ⟨_, rfl, rfl, ?_, ?_⟩
  · simp
  · intro ms
    simp

theorem GetCallStack_kill_failed_witness :
    ¬ ((2 : Nat) = 0 ∨ (sampleEnv Delivery.failed).self = 2) ∧
    sampleState.g_lock = false ∧
    (sampleEnv Delivery.failed).delivery = Delivery.failed ∧
    ∃ st', GetCallStack (sampleEnv Delivery.failed) sampleState 2 100 4
        = Outcome.returned st' 0 ∧
      st'.disposition = sampleState.disposition ∧
      st'.trace = sampleState.trace ++ [Op.sigaction SA_SIGINFO callstack, Op.ResetEvent,
        Op.pthread_kill 2 SA_SIGINFO false, Op.sigaction SA_SIGINFO sampleState.disposition] ∧
      (∀ ms, Op.Lock ms ∉ [Op.sigaction SA_SIGINFO callstack, Op.ResetEvent,
        Op.pthread_kill 2 SA_SIGINFO false, Op.sigaction SA_SIGINFO sampleState.disposition]) :=
  ⟨by decide, rfl, rfl,
   GetCallStack_kill_failed (sampleEnv Delivery.failed) sampleState 2 100 4 (by decide) rfl rfl⟩

/-- A statement of a handler run that is still going on changes neither the
registration of the signal nor the gate. -/
theorem lateStep_frame (arch : Arch) (walk : Nat → Int → Walked) (st s : State)
    (h : lateStep arch walk st = some s) :
    s.disposition = st.disposition ∧ s.g_lock = st.g_lock := by
  unfold lateStep at h
  split at h
  · cases Option.some.inj h
    exact ⟨rfl, rfl⟩
  · split at h
    · cases Option.some.inj h
      exact ⟨rfl, rfl⟩
    · split at h
      · exact Option.noConfusion h
      · rename_i s1 hs1
        have hf := handlerStmt_frame _ _ _ _ _ _ hs1
        cases Option.some.inj h
        exact ⟨hf.2.1, hf.1⟩

/-- C6: a capture of another thread that finds the gate free does not spin,
and when it returns, the registration of the signal is the one saved at the
start of the call (the restore is the last operating-system call) and the gate
flag is cleared, whether the handler set the event, the wait of 200 ms timed
out or the signal was not delivered; a wait, when there is one, is Lock(200);
any capture that follows acquires the gate (it does not spin) and, when it
returns, has installed its handler and restored the registration and the gate
again; and the statements that a timed-out handler still executes after the
call change neither the registration nor the gate. The call returns when
pthread_kill fails or the capacity is between 1 and INT_MAX and the buffer is
accessible memory; otherwise a memory fault in the handler can kill the
process. -/
theorem GetCallStack_restores_handler_and_gate (env : Env) (st : State)
    (threadId addresses bufferSize : Nat)
    (hother : ¬ (threadId = 0 ∨ env.self = threadId)) (hfree : st.g_lock = false) :
    GetCallStack env st threadId addresses bufferSize ≠ Outcome.spins ∧
    ((env.delivery = Delivery.failed ∨
        (1 ≤ bufferSize ∧ bufferSize < 2 ^ 31 ∧
          accessible st.blocks addresses bufferSize = true)) →
      ∃ st' r, GetCallStack env st threadId addresses bufferSize = Outcome.returned st' r) ∧
    (∀ st' r, GetCallStack env st threadId addresses bufferSize = Outcome.returned st' r →
      st'.disposition = st.disposition ∧ st'.g_lock = false ∧
      st'.trace.getLast? = some (Op.sigaction SA_SIGINFO st.disposition) ∧
      (env.delivery ≠ Delivery.failed → Op.Lock 200 ∈ st'.trace) ∧
      (∀ (env2 : Env) (threadId2 addresses2 bufferSize2 : Nat),
        GetCallStack env2 st' threadId2 addresses2 bufferSize2 ≠ Outcome.spins ∧
        ∀ st2 r2, GetCallStack env2 st' threadId2 addresses2 bufferSize2
            = Outcome.returned st2 r2 →
          st2.disposition = st.disposition ∧ st2.g_lock = false ∧
          (¬ (threadId2 = 0 ∨ env2.self = threadId2) →
            Op.sigaction SA_SIGINFO callstack ∈ st2.trace.drop st'.trace.length)) ∧
      (∀ (arch : Arch) (walk : Nat → Int → Walked) (s : State),
        lateStep arch walk st' = some s →
          s.disposition = st.disposition ∧ s.g_lock = false)) := by
  obtain ⟨hns, hret⟩ := GetCallStack_other env st threadId addresses bufferSize hother hfree
  refine ⟨hns, GetCallStack_other_returns env st threadId addresses bufferSize hother hfree, ?_⟩
  intro st' r h
  obtain ⟨s4, hs4, hd, hl, ht, _, _, _⟩ := hret st' r h
  have htr := deliver_trace env threadId (armed st threadId addresses bufferSize) s4 rfl hs4
  refine ⟨hd, hl, ?_, ?_, ?_, ?_⟩
  · rw [ht]
    simp
  · intro hne
    rw [ht, htr]
    cases hdel : env.delivery with
    | failed => exact absurd hdel hne
    | completed s => simp [armed]
    | timedOut s k => simp [armed]
  · intro env2 threadId2 addresses2 bufferSize2
    by_cases h2 : threadId2 = 0 ∨ env2.self = threadId2
    · rw [GetCallStack_self_eq env2 st' threadId2 addresses2 bufferSize2 h2]
      refine ⟨fun hh => Outcome.noConfusion hh, ?_⟩
      intro st2 r2 hh
      simp only [Outcome.returned.injEq] at hh
      obtain ⟨h1, _⟩ := hh
      subst h1
      exact ⟨hd, hl, fun hn => absurd h2 hn⟩
    · obtain ⟨gns, gret⟩ := GetCallStack_other env2 st' threadId2 addresses2 bufferSize2 h2 hl
      refine ⟨gns, ?_⟩
      intro st2 r2 hh
      obtain ⟨t4, ht4, gd, gl, gt, _, _, _⟩ := gret st2 r2 hh
      have gtr := deliver_trace env2 threadId2 (armed st' threadId2 addresses2 bufferSize2) t4
        rfl ht4
      refine ⟨gd.trans hd, gl, ?_⟩
      intro _
      rw [gt, gtr]
      cases env2.delivery <;> simp [armed]
  · intro arch walk s hs
    obtain ⟨f1, f2⟩ := lateStep_frame arch walk st' s hs
    exact ⟨f1.trans hd, f2.trans hl⟩

theorem GetCallStack_restores_handler_and_gate_witness :
    ¬ ((2 : Nat) = 0 ∨ (sampleEnv (Delivery.timedOut ⟨99⟩ 1)).self = 2) ∧
    sampleState.g_lock = false ∧
    (GetCallStack (sampleEnv (Delivery.timedOut ⟨99⟩ 1)) sampleState 2 100 4).result.map
      (fun p => (p.2, p.1.g_lock, p.1.disposition, p.1.late))
      = some (0, false, sampleState.disposition, [{ thread := 2, secret := ⟨99⟩, done := 1 }]) ∧
    ∃ st' r, GetCallStack (sampleEnv (Delivery.timedOut ⟨99⟩ 1)) sampleState 2 100 4
      = Outcome.returned st' r :=
  ⟨by decide, rfl, by decide,
   (GetCallStack_restores_handler_and_gate (sampleEnv (Delivery.timedOut ⟨99⟩ 1)) sampleState
     2 100 4 (by decide) rfl).2.1 (Or.inr ⟨by decide, by decide, by decide⟩)⟩

/-- The memory that OverrideStackTopWithPC leaves, when it is called as the
handler calls it (stackSize is the size of the shared buffer) with a size
between 1 and INT_MAX and does not fault. -/
theorem OverrideStackTopWithPC_mem (arch : Arch) (st s : State) (secret : UContext) (C : Nat)
    (hC1 : 1 ≤ C) (hC2 : C < 2 ^ 31) (hsize : st.g_threadCallstackBufferSize = (C : Int))
    (stack : Nat)
    (h : OverrideStackTopWithPC arch st stack st.g_threadCallstackBufferSize secret = some s)
    (a : Nat) :
    s.mem a
      = if a = stack then GetPCFromUContext arch secret
        else if stack + 1 ≤ a ∧ a < stack + C then st.mem (a - 1)
        else st.mem a := by
  have e1 : sizeofPtr * (C - 1) / sizeofPtr = C - 1 := by unfold sizeofPtr; omega
  have e2 : (0 : Nat) / sizeofPtr = 0 := by unfold sizeofPtr; omega
  simp only [OverrideStackTopWithPC, hsize, moveBytes_eq C hC1 hC2, zeroBytes_eq C hC1 hC2,
    movedCount_eq C hC1 hC2, memmove, memset, store, e1, e2] at h
  split at h
  · exact Option.noConfusion h
  · rename_i m1 hm1
    split at hm1
    · cases Option.some.inj hm1
      split at h
      · exact Option.noConfusion h
      · rename_i m2 hm2
        split at hm2
        · cases Option.some.inj hm2
          split at h
          · exact Option.noConfusion h
          · rename_i m3 hm3
            split at hm3
            · cases Option.some.inj hm3
              cases Option.some.inj h
              simp only []
              by_cases h0 : a = stack
              · simp [h0]
              · simp only [h0, if_false]
                have hno : ¬ (stack + 1 + (C - 1) ≤ a ∧ a < stack + 1 + (C - 1) + 0) := by
                  omega
                simp only [hno, if_false]
                by_cases h1 : stack + 1 ≤ a ∧ a < stack + C
                · have h1' : stack + 1 ≤ a ∧ a < stack + 1 + (C - 1) := by omega
                  have e3 : stack + (a - (stack + 1)) = a - 1 := by omega
                  simp only [h1, h1', if_true, e3, and_self]
                · have h1' : ¬ (stack + 1 ≤ a ∧ a < stack + 1 + (C - 1)) := by omega
                  simp only [h1, h1', if_false]
            · exact Option.noConfusion hm3
        · exact Option.noConfusion hm2
    · exact Option.noConfusion hm1

/-- The memory after the whole handler body, from the memory after its first
two statements (the zero fill and the stack walk). -/
theorem handlerBody_mem (arch : Arch) (walk : Int → Walked) (secret : UContext) (st s2 s : State)
    (C : Nat) (hC1 : 1 ≤ C) (hC2 : C < 2 ^ 31)
    (hsize : st.g_threadCallstackBufferSize = (C : Int))
    (h2 : handlerBody arch walk secret 2 st = some s2)
    (h4 : handlerBody arch walk secret 4 st = some s) (a : Nat) :
    s.mem a
      = if a = st.g_threadCallstackBuffer then GetPCFromUContext arch secret
        else if st.g_threadCallstackBuffer + 1 ≤ a ∧ a < st.g_threadCallstackBuffer + C
          then s2.mem (a - 1)
        else s2.mem a := by
  obtain ⟨_, _, _, hb, hs, _, _⟩ := handlerBody_frame arch walk secret 2 st s2 h2
  rw [handlerBody_succ, handlerBody_succ, h2] at h4
  simp only [Option.bind_eq_bind, Option.some_bind] at h4
  obtain ⟨s3, hs3, hs4⟩ := Option.bind_eq_some.mp h4
  simp only [handlerStmt] at hs3 hs4
  cases Option.some.inj hs4
  simp only []
  rw [hb] at hs3
  rw [OverrideStackTopWithPC_mem arch s2 s3 secret C hC1 hC2 (hs.trans hsize) _ hs3]

theorem handlerBody_two_mem (arch : Arch) (walk : Int → Walked) (secret : UContext)
    (st s2 : State) (h2 : handlerBody arch walk secret 2 st = some s2) :
    ∃ m0, s2.mem = storeList m0 st.g_threadCallstackBuffer
      (walk st.g_threadCallstackBufferSize).stored := by
  rw [handlerBody_succ, handlerBody_succ, handlerBody_zero] at h2
  simp only [Option.bind_eq_bind, Option.some_bind] at h2
  obtain ⟨s1, hs1, hs2⟩ := Option.bind_eq_some.mp h2
  obtain ⟨_, _, _, hb, hs, _, _⟩ := handlerStmt_frame arch walk secret 0 st s1 hs1
  simp only [handlerStmt, backtrace] at hs2
  cases Option.some.inj hs2
  exact ⟨s1.mem, by simp [hb, hs]⟩

theorem readBuf_succ (m : Mem) (p n : Nat) :
    readBuf m p (n + 1) = m p :: (List.range n).map (fun i => m (p + (i + 1))) := by
  simp [readBuf, List.range_succ_eq_map, List.map_map, Function.comp_def]

/-- C2: when CallstackSignalHandler runs on the target thread with a shared
buffer of capacity C, 1 ≤ C ≤ INT_MAX, the buffer afterwards holds in slot 0
the program counter recovered from the interrupted context (the pc of the
context on the architectures the source knows) and, for every i with i + 1 < C,
in slot i + 1 what the stack walk had put in slot i (entry i of what the walk
stored when it stored one); the buffer reads as the program counter followed
by the first C - 1 slots of the walk, so what the walk had put in the last slot
is dropped, and the slot after the buffer is not written by the shift. The
handler runs to its end when the C slots of the buffer are accessible
memory. -/
theorem CallstackSignalHandler_pc_then_shifted_walk (arch : Arch) (self : Nat)
    (walk : Int → Walked) (secret : UContext) (st : State) (C : Nat)
    (hC1 : 1 ≤ C) (hC2 : C < 2 ^ 31)
    (hsize : st.g_threadCallstackBufferSize = (C : Int))
    (hself : self = st.g_targetThread) :
    (accessible st.blocks st.g_threadCallstackBuffer C = true →
      ∃ s2 s, handlerBody arch walk secret 2 st = some s2 ∧
        CallstackSignalHandler arch self walk secret st = some s) ∧
    (∀ s2 s, handlerBody arch walk secret 2 st = some s2 →
      CallstackSignalHandler arch self walk secret st = some s →
      s.mem st.g_threadCallstackBuffer = GetPCFromUContext arch secret ∧
      (arch ≠ Arch.other → s.mem st.g_threadCallstackBuffer = secret.pc) ∧
      (∀ i, i + 1 < C →
        s.mem (st.g_threadCallstackBuffer + (i + 1)) = s2.mem (st.g_threadCallstackBuffer + i)) ∧
      (∀ i, i + 1 < C → i < (walk (C : Int)).stored.length →
        s.mem (st.g_threadCallstackBuffer + (i + 1)) = (walk (C : Int)).stored.getD i 0) ∧
      readBuf s.mem st.g_threadCallstackBuffer C
          = GetPCFromUContext arch secret :: readBuf s2.mem st.g_threadCallstackBuffer (C - 1) ∧
      s.mem (st.g_threadCallstackBuffer + C) = s2.mem (st.g_threadCallstackBuffer + C)) := by
  have hrun : CallstackSignalHandler arch self walk secret st
      = handlerBody arch walk secret 4 st := by
    simp [CallstackSignalHandler, hself]
  rw [hrun]
  constructor
  · intro hacc
    obtain ⟨s2, h2⟩ := handlerBody_some arch walk secret 2 st C hC1 hC2 hsize hacc
    obtain ⟨s, h4⟩ := handlerBody_some arch walk secret 4 st C hC1 hC2 hsize hacc
    exact ⟨s2, s, h2, h4⟩
  · intro s2 s h2 h4
    have hm := handlerBody_mem arch walk secret st s2 s C hC1 hC2 hsize h2 h4
    have h0 : s.mem st.g_threadCallstackBuffer = GetPCFromUContext arch secret := by
      rw [hm]; simp
    have hs : ∀ i, i + 1 < C →
        s.mem (st.g_threadCallstackBuffer + (i + 1))
          = s2.mem (st.g_threadCallstackBuffer + i) := by
      intro i hi
      rw [hm]
      have n0 : ¬ (st.g_threadCallstackBuffer + (i + 1) = st.g_threadCallstackBuffer) := by
        omega
      have n1 : st.g_threadCallstackBuffer + 1 ≤ st.g_threadCallstackBuffer + (i + 1) ∧
          st.g_threadCallstackBuffer + (i + 1) < st.g_threadCallstackBuffer + C := by omega
      simp only [n0, n1, if_false, if_true, and_self]
      rfl
    refine ⟨h0, ?_, hs, ?_, ?_, ?_⟩
    · intro harch
      rw [h0]
      cases arch <;> simp_all [GetPCFromUContext]
    · intro i hi hlen
      obtain ⟨m0, hm0⟩ := handlerBody_two_mem arch walk secret st s2 h2
      rw [hs i hi, hm0, hsize]
      simp [storeList, hlen]
    · obtain ⟨n, rfl⟩ : ∃ n, C = n + 1 := ⟨C - 1, by omega⟩
      rw [readBuf_succ, h0]
      simp only [Nat.add_sub_cancel, readBuf]
      congr 1
      apply List.map_congr_left
      intro i hi
      exact hs i (by simpa using List.mem_range.mp hi)
    · rw [hm]
      have n0 : ¬ (st.g_threadCallstackBuffer + C = st.g_threadCallstackBuffer) := by omega
      have n1 : ¬ (st.g_threadCallstackBuffer + 1 ≤ st.g_threadCallstackBuffer + C ∧
          st.g_threadCallstackBuffer + C < st.g_threadCallstackBuffer + C) := by omega
      simp only [n0, n1, if_false]

theorem CallstackSignalHandler_pc_then_shifted_walk_witness :
    (1 : Nat) ≤ 4 ∧ (4 : Nat) < 2 ^ 31 ∧
    (armedState 4).g_threadCallstackBufferSize = ((4 : Nat) : Int) ∧
    2 = (armedState 4).g_targetThread ∧
    accessible (armedState 4).blocks (armedState 4).g_threadCallstackBuffer 4 = true ∧
    (CallstackSignalHandler Arch.x86_64 2 (sampleWalk 2) ⟨99⟩ (armedState 4)).map
        (fun s => readBuf s.mem 100 4) = some [99, 11, 12, 0] ∧
    ∃ s2 s, handlerBody Arch.x86_64 (sampleWalk 2) ⟨99⟩ 2 (armedState 4) = some s2 ∧
      CallstackSignalHandler Arch.x86_64 2 (sampleWalk 2) ⟨99⟩ (armedState 4) = some s :=
  ⟨by decide, by decide, rfl, rfl, by decide, by decide,
   (CallstackSignalHandler_pc_then_shifted_walk Arch.x86_64 2 (sampleWalk 2) ⟨99⟩ (armedState 4) 4
      (by decide) (by decide) rfl rfl).1 (by decide)⟩

/-- C9, at the input where the code departs from it: with a shared buffer of
capacity 0 at slot 100, OverrideStackTopWithPC computes movedCount as
4294967295 and asks memmove to move 34359738360 bytes to the slots from 101 on,
none of which is below the capacity. In a process that can access the buffer
only, the move faults and GetCallStack with bufferSize 0 on another thread ends
with the process killed; in a process that can access the slots up to 2 ^ 33,
the move and the store of the program counter change slots 100 and 101. -/
theorem OverrideStackTopWithPC_capacity_zero_writes :
    movedCount 0 0 = 4294967295 ∧ moveBytes 0 0 = 34359738360 ∧ zeroBytes 0 0 = 0 ∧
    accessible (armedState 0).blocks (100 + 1) (moveBytes 0 0 / sizeofPtr) = false ∧
    (OverrideStackTopWithPC Arch.x86_64 (armedState 0) 100 0 ⟨99⟩).isNone = true ∧
    (GetCallStack (sampleEnv (Delivery.completed ⟨99⟩)) sampleState 2 100 0).isKilled = true ∧
    wideArmed.mem 100 = 1100 ∧ wideArmed.mem 101 = 1101 ∧
    (OverrideStackTopWithPC Arch.x86_64 wideArmed 100 0 ⟨99⟩).map
      (fun s => (s.mem 100, s.mem 101)) = some (99, 1100) ∧
    (GetCallStack (sampleEnv (Delivery.completed ⟨99⟩)) wideState 2 100 0).result.map
      (fun p => (p.2, readBuf p.1.mem 100 3)) = some (0, [99, 1100, 1101]) := by decide

/-- C3, at the input where the code departs from it: a capture of another
thread into a buffer of capacity 4, where the walk yields the two frames 11 and
12 and the interrupted program counter is 99, leaves the three addresses 99,
11, 12 in the buffer and returns the count 2. -/
theorem GetCallStack_count_misses_program_counter :
    (GetCallStack (sampleEnv (Delivery.completed ⟨99⟩)) sampleState 2 100 4).result.map
      (fun p => (p.2, readBuf p.1.mem 100 4)) = some (2, [99, 11, 12, 0]) ∧
    (GetCallStack (sampleEnv (Delivery.completed ⟨99⟩)) sampleState 0 100 4).result.map
      (fun p => (p.2, readBuf p.1.mem 100 4)) = some (2, [11, 12, 1102, 1103]) := by decide

/-- For a capacity between 1 and INT_MAX the writes of OverrideStackTopWithPC,
called as the handler calls it, stay inside the buffer: the moved slots end at
the capacity, nothing is zero-filled, and memory outside the buffer is as
before. -/
theorem OverrideStackTopWithPC_in_bounds (arch : Arch) (st s : State) (secret : UContext)
    (C : Nat) (hC1 : 1 ≤ C) (hC2 : C < 2 ^ 31)
    (hsize : st.g_threadCallstackBufferSize = (C : Int)) (stack : Nat)
    (h : OverrideStackTopWithPC arch st stack st.g_threadCallstackBufferSize secret = some s) :
    1 + moveBytes (C : Int) (C : Int) / sizeofPtr = C ∧
    zeroBytes (C : Int) (C : Int) = 0 ∧
    (∀ a, a < stack ∨ stack + C ≤ a → s.mem a = st.mem a) := by
  refine ⟨?_, zeroBytes_eq C hC1 hC2, ?_⟩
  · rw [moveBytes_eq C hC1 hC2]
    unfold sizeofPtr
    omega
  · intro a ha
    rw [OverrideStackTopWithPC_mem arch st s secret C hC1 hC2 hsize stack h]
    have n0 : ¬ (a = stack) := by omega
    have n1 : ¬ (stack + 1 ≤ a ∧ a < stack + C) := by omega
    simp only [n0, n1, if_false]

/-- With capacity 0, when the 4294967295 slots after the buffer are not all
accessible, OverrideStackTopWithPC faults. -/
theorem OverrideStackTopWithPC_capacity_zero_faults (arch : Arch) (st : State)
    (secret : UContext) (stack : Nat) (hsize : st.g_threadCallstackBufferSize = 0)
    (hacc : accessible st.blocks (stack + 1) 4294967295 = false) :
    OverrideStackTopWithPC arch st stack st.g_threadCallstackBufferSize secret = none := by
  have e : moveBytes 0 0 / sizeofPtr = 4294967295 := by decide
  simp [OverrideStackTopWithPC, hsize, memmove, e, hacc]

/-- A capture of another thread with bufferSize 0 whose handler runs to the
call of OverrideStackTopWithPC ends with the process killed, when the
4294967295 slots after the buffer are not all accessible. -/
theorem GetCallStack_capacity_zero_killed (env : Env) (st : State) (threadId addresses : Nat)
    (secret : UContext)
    (hother : ¬ (threadId = 0 ∨ env.self = threadId)) (hfree : st.g_lock = false)
    (hd : env.delivery = Delivery.completed secret)
    (hacc : accessible st.blocks (addresses + 1) 4294967295 = false) :
    GetCallStack env st threadId addresses 0 = Outcome.killed := by
  rw [GetCallStack_other_eq env st threadId addresses 0 hother hfree]
  have hnone : deliver env threadId (armed st threadId addresses 0) = none := by
    simp only [deliver, hd, CallstackSignalHandler, armed, if_true]
    rw [handlerBody_succ, handlerBody_succ]
    cases h2 : handlerBody env.arch (env.walk threadId) secret 2
        { st with g_lock := true, disposition := callstack, g_targetThread := threadId,
                  g_threadCallstackBuffer := addresses,
                  g_threadCallstackBufferSize := toInt32 0,
                  g_threadCallstackBufferUsed := 0, g_callstackCompleted := false,
                  trace := st.trace ++ [Op.sigaction SA_SIGINFO callstack] ++ [Op.ResetEvent]
                    ++ [Op.pthread_kill threadId SA_SIGINFO true, Op.Lock 200] } with
    | none => rfl
    | some s2 =>
      obtain ⟨_, _, _, hb, hs, hbl, _⟩ := handlerBody_frame _ _ _ _ _ _ h2
      have hs0 : s2.g_threadCallstackBufferSize = 0 := by
        rw [hs]
        show toInt32 0 = 0
        decide
      have hov := OverrideStackTopWithPC_capacity_zero_faults env.arch s2 secret
        s2.g_threadCallstackBuffer hs0 (by rw [hbl, hb]; exact hacc)
      simp [handlerStmt, hov]
  rw [hnone]

/-- A handler run that its capture did not wait for goes on after the call:
the capture of thread 2 that timed out after the handler's first statement
returns 0 frames, and the three statements the handler still executes store
the walk and the program counter in the caller's buffer and set the used count
to 2. -/
theorem lateStep_runs_on_after_timeout :
    ((GetCallStack (sampleEnv (Delivery.timedOut ⟨99⟩ 1)) sampleState 2 100 4).result.bind
      (fun p => (lateStep Arch.x86_64 sampleWalk p.1).bind
        (fun s1 => (lateStep Arch.x86_64 sampleWalk s1).bind
          (fun s2 => (lateStep Arch.x86_64 sampleWalk s2).map
            (fun s3 => (p.2, readBuf p.1.mem 100 4, readBuf s3.mem 100 4,
                        s3.g_threadCallstackBufferUsed, s3.late))))))
      = some (0, [0, 0, 0, 0], [99, 11, 12, 0], 2, []) := by decide

namespace Core

theorem resize_length (dst : String) (n : Nat) : (resize dst n).length = n := by
  show ((dst.data ++ List.replicate n (Char.ofNat 0)).take n).length = n
  simp [List.length_take]

/-- When formatting yields a text that is not empty, toString stores it. -/
theorem toString_of_nonempty {α : Type} (render : String → α → Option String) (dst format : String)
    (ap : α) (s : String) (h : render format ap = some s) (hs : 0 < s.length) :
    toString render dst format ap = s := by
  have hpos : ((s.length : Nat) : Int) > 0 := by omega
  simp only [toString, vsnprintf, h, hpos, if_true, resize_length, Int.toNat_ofNat]
  have hne : ¬ (s.length + 1 = 0) := by omega
  have htake : List.take (s.length + 1 - 1) s.data = s.data := by
    rw [Nat.add_sub_cancel]
    exact List.take_length s.data
  simp only [hne, if_false, htake]

/-- When formatting fails, toString stores the error text. -/
theorem toString_of_failure {α : Type} (render : String → α → Option String) (dst format : String)
    (ap : α) (h : render format ap = none) :
    toString render dst format ap = "Format error! format: " ++ format := by
  simp [toString, vsnprintf, h]

/-- C8, at the input where the code departs from it: formatting the empty
format succeeds with the empty text, yet toString, and so each of the three
overloads of Format, yields the error text and not the empty string; a format
whose text is not empty is stored as the claim says. -/
theorem Format_empty_message_is_error :
    plainRender "" () = some "" ∧
    (vsnprintf plainRender 0 "" ()).2 = 0 ∧
    toString plainRender "old" "" () = "Format error! format: " ∧
    FormatDst plainRender "old" "" () = "Format error! format: " ∧
    Format plainRender "" () = "Format error! format: " ∧
    FormatVa plainRender "old" "" () = "Format error! format: " ∧
    Format plainRender "abc" () = "abc" := by decide

end Core

/-! ## Properties of htonll and ntohll -/

theorem bswap32_lt (x : Nat) : bswap32 x < 2 ^ 32 := by
  unfold bswap32
  omega

theorem htonll_little (v : Nat) (hv : v < 2 ^ 64) :
    htonll true v = bswap32 (v % 2 ^ 32) * 2 ^ 32 + bswap32 (v / 2 ^ 32) := by
  have h1 : firstByteOfInt true 42 = 42 := by decide
  have e : (0xFFFFFFFF : Nat) = 2 ^ 32 - 1 := by norm_num
  simp only [htonll, h1, if_true, htonl, e, Nat.and_pow_two_sub_one_eq_mod,
    Nat.shiftRight_eq_div_pow, Nat.shiftLeft_eq]
  have a1 : v / 2 ^ 32 % 2 ^ 32 = v / 2 ^ 32 := by omega
  have a2 : v % 2 ^ 32 % 2 ^ 32 = v % 2 ^ 32 := by omega
  rw [a1, a2]
  have b1 := bswap32_lt (v % 2 ^ 32)
  have b2 := bswap32_lt (v / 2 ^ 32)
  have a3 : bswap32 (v % 2 ^ 32) * 2 ^ 32 % 2 ^ 64 = 2 ^ 32 * bswap32 (v % 2 ^ 32) := by omega
  rw [a3, ← Nat.mul_add_lt_is_or b2]
  omega

theorem bytes64_eq (v : Nat) : bytes64 v = [v / 256 ^ 0 % 256, v / 256 ^ 1 % 256, v / 256 ^ 2 % 256,
    v / 256 ^ 3 % 256, v / 256 ^ 4 % 256, v / 256 ^ 5 % 256, v / 256 ^ 6 % 256, v / 256 ^ 7 % 256] := rfl

theorem bswap32_low (v : Nat) :
    bswap32 (v % 2 ^ 32)
      = v / 256 ^ 0 % 256 * 2 ^ 24 + v / 256 ^ 1 % 256 * 2 ^ 16 + v / 256 ^ 2 % 256 * 2 ^ 8
        + v / 256 ^ 3 % 256 := by
  unfold bswap32
  omega

theorem bswap32_high (v : Nat) :
    bswap32 (v / 2 ^ 32 % 2 ^ 32)
      = v / 256 ^ 4 % 256 * 2 ^ 24 + v / 256 ^ 5 % 256 * 2 ^ 16 + v / 256 ^ 6 % 256 * 2 ^ 8
        + v / 256 ^ 7 % 256 := by
  have e : v / 2 ^ 32 % 2 ^ 32 = (v / 2 ^ 32) % 2 ^ 32 := rfl
  have h := bswap32_low (v / 2 ^ 32)
  have d4 : v / 2 ^ 32 / 256 ^ 0 = v / 256 ^ 4 := by norm_num
  have d5 : v / 2 ^ 32 / 256 ^ 1 = v / 256 ^ 5 := by
    rw [Nat.div_div_eq_div_mul]; norm_num
  have d6 : v / 2 ^ 32 / 256 ^ 2 = v / 256 ^ 6 := by
    rw [Nat.div_div_eq_div_mul]; norm_num
  have d7 : v / 2 ^ 32 / 256 ^ 3 = v / 256 ^ 7 := by
    rw [Nat.div_div_eq_div_mul]; norm_num
  rw [d4, d5, d6, d7] at h
  exact h

theorem ofBytes_reverse_bytes64 (v : Nat) :
    ofBytes (bytes64 v).reverse
      = bswap32 (v % 2 ^ 32) * 2 ^ 32 + bswap32 (v / 2 ^ 32 % 2 ^ 32) := by
  rw [bytes64_eq, bswap32_low, bswap32_high]
  simp only [ofBytes, List.reverse_cons, List.reverse_nil, List.nil_append, List.cons_append,
    List.foldr_cons, List.foldr_nil]
  generalize v / 256 ^ 0 % 256 = b0
  generalize v / 256 ^ 1 % 256 = b1
  generalize v / 256 ^ 2 % 256 = b2
  generalize v / 256 ^ 3 % 256 = b3
  generalize v / 256 ^ 4 % 256 = b4
  generalize v / 256 ^ 5 % 256 = b5
  generalize v / 256 ^ 6 % 256 = b6
  generalize v / 256 ^ 7 % 256 = b7
  ring

theorem ofBytes_bytes64 (v : Nat) (hv : v < 2 ^ 64) : ofBytes (bytes64 v) = v := by
  rw [bytes64_eq]
  simp only [ofBytes, List.foldr_cons, List.foldr_nil]
  have h0 := Nat.div_add_mod (v / 256 ^ 0) 256
  have h1 := Nat.div_add_mod (v / 256 ^ 1) 256
  have h2 := Nat.div_add_mod (v / 256 ^ 2) 256
  have h3 := Nat.div_add_mod (v / 256 ^ 3) 256
  have h4 := Nat.div_add_mod (v / 256 ^ 4) 256
  have h5 := Nat.div_add_mod (v / 256 ^ 5) 256
  have h6 := Nat.div_add_mod (v / 256 ^ 6) 256
  have h7 := Nat.div_add_mod (v / 256 ^ 7) 256
  have e0 : v / 256 ^ 0 = v := by simp
  have e1 : v / 256 ^ 0 / 256 = v / 256 ^ 1 := by simp
  have e2 : v / 256 ^ 1 / 256 = v / 256 ^ 2 := by rw [Nat.div_div_eq_div_mul]; norm_num
  have e3 : v / 256 ^ 2 / 256 = v / 256 ^ 3 := by rw [Nat.div_div_eq_div_mul]; norm_num
  have e4 : v / 256 ^ 3 / 256 = v / 256 ^ 4 := by rw [Nat.div_div_eq_div_mul]; norm_num
  have e5 : v / 256 ^ 4 / 256 = v / 256 ^ 5 := by rw [Nat.div_div_eq_div_mul]; norm_num
  have e6 : v / 256 ^ 5 / 256 = v / 256 ^ 6 := by rw [Nat.div_div_eq_div_mul]; norm_num
  have e7 : v / 256 ^ 6 / 256 = v / 256 ^ 7 := by rw [Nat.div_div_eq_div_mul]; norm_num
  have e8 : v / 256 ^ 7 / 256 = 0 := by
    rw [Nat.div_div_eq_div_mul]
    apply Nat.div_eq_of_lt
    calc v < 2 ^ 64 := hv
      _ = 256 ^ 7 * 256 := by norm_num
  rw [e1] at h0
  rw [e2] at h1
  rw [e3] at h2
  rw [e4] at h3
  rw [e5] at h4
  rw [e6] at h5
  rw [e7] at h6
  rw [e8] at h7
  generalize v / 256 ^ 0 % 256 = b0 at *
  generalize v / 256 ^ 1 % 256 = b1 at *
  generalize v / 256 ^ 2 % 256 = b2 at *
  generalize v / 256 ^ 3 % 256 = b3 at *
  generalize v / 256 ^ 4 % 256 = b4 at *
  generalize v / 256 ^ 5 % 256 = b5 at *
  generalize v / 256 ^ 6 % 256 = b6 at *
  generalize v / 256 ^ 7 % 256 = b7 at *
  generalize v / 256 ^ 0 = q0 at *
  generalize v / 256 ^ 1 = q1 at *
  generalize v / 256 ^ 2 = q2 at *
  generalize v / 256 ^ 3 = q3 at *
  generalize v / 256 ^ 4 = q4 at *
  generalize v / 256 ^ 5 = q5 at *
  generalize v / 256 ^ 6 = q6 at *
  generalize v / 256 ^ 7 = q7 at *
  omega

theorem bswap32_of_bytes (b0 b1 b2 b3 : Nat) (h0 : b0 < 256) (h1 : b1 < 256) (h2 : b2 < 256)
    (h3 : b3 < 256) :
    bswap32 (b0 + 256 * b1 + 65536 * b2 + 16777216 * b3)
      = b3 + 256 * b2 + 65536 * b1 + 16777216 * b0 := by
  simp only [bswap32, Nat.reducePow]
  omega

theorem bswap32_bswap32 (x : Nat) (hx : x < 2 ^ 32) : bswap32 (bswap32 x) = x := by
  obtain ⟨b0, b1, b2, b3, h0, h1, h2, h3, rfl⟩ : ∃ b0 b1 b2 b3, b0 < 256 ∧ b1 < 256 ∧ b2 < 256 ∧
      b3 < 256 ∧ x = b0 + 256 * b1 + 65536 * b2 + 16777216 * b3 :=
    ⟨x % 256, x / 256 % 256, x / 65536 % 256, x / 16777216, by omega, by omega, by omega,
      by omega, by omega⟩
  rw [bswap32_of_bytes b0 b1 b2 b3 h0 h1 h2 h3, bswap32_of_bytes b3 b2 b1 b0 h3 h2 h1 h0]

theorem ntohll_eq_htonll (littleEndian : Bool) (v : Nat) :
    ntohll littleEndian v = htonll littleEndian v := rfl

theorem htonll_big (v : Nat) : htonll false v = v := by
  have h1 : firstByteOfInt false 42 ≠ 42 := by decide
  simp [htonll, h1]

theorem htonll_lt (littleEndian : Bool) (v : Nat) (hv : v < 2 ^ 64) :
    htonll littleEndian v < 2 ^ 64 := by
  cases littleEndian with
  | false => rw [htonll_big]; exact hv
  | true =>
    rw [htonll_little v hv]
    have b1 := bswap32_lt (v % 2 ^ 32)
    have b2 := bswap32_lt (v / 2 ^ 32)
    omega

theorem htonll_htonll (littleEndian : Bool) (v : Nat) (hv : v < 2 ^ 64) :
    htonll littleEndian (htonll littleEndian v) = v := by
  cases littleEndian with
  | false => rw [htonll_big, htonll_big]
  | true =>
    rw [htonll_little _ (htonll_lt true v hv), htonll_little v hv]
    have b1 := bswap32_lt (v % 2 ^ 32)
    have b2 := bswap32_lt (v / 2 ^ 32)
    have m1 : (bswap32 (v % 2 ^ 32) * 2 ^ 32 + bswap32 (v / 2 ^ 32)) % 2 ^ 32
        = bswap32 (v / 2 ^ 32) := by omega
    have m2 : (bswap32 (v % 2 ^ 32) * 2 ^ 32 + bswap32 (v / 2 ^ 32)) / 2 ^ 32
        = bswap32 (v % 2 ^ 32) := by omega
    rw [m1, m2, bswap32_bswap32 _ (by omega), bswap32_bswap32 _ (by omega)]
    omega

/-- C10: for every 64-bit value v, htonll on a little-endian host is v with
its eight bytes in reversed order, on a big-endian host it is v; ntohll is the
same function; and each undoes the other. -/
theorem htonll_ntohll_byte_order (v : Nat) (hv : v < 2 ^ 64) :
    htonll true v = ofBytes (bytes64 v).reverse ∧
    htonll false v = v ∧
    ofBytes (bytes64 v) = v ∧
    (∀ littleEndian : Bool,
      ntohll littleEndian v = htonll littleEndian v ∧
      ntohll littleEndian (htonll littleEndian v) = v ∧
      htonll littleEndian (ntohll littleEndian v) = v) := by
  refine ⟨?_, htonll_big v, ofBytes_bytes64 v hv, ?_⟩
  · rw [htonll_little v hv, ofBytes_reverse_bytes64]
    have a1 : v / 2 ^ 32 % 2 ^ 32 = v / 2 ^ 32 := by omega
    rw [a1]
  · intro littleEndian
    refine ⟨rfl, ?_, ?_⟩
    · rw [ntohll_eq_htonll]
      exact htonll_htonll littleEndian v hv
    · rw [ntohll_eq_htonll]
      exact htonll_htonll littleEndian v hv

theorem htonll_ntohll_byte_order_witness :
    (0x0102030405060708 : Nat) < 2 ^ 64 ∧
    htonll true 0x0102030405060708 = 0x0807060504030201 ∧
    (htonll true 0x0102030405060708 = ofBytes (bytes64 0x0102030405060708).reverse ∧
     htonll false 0x0102030405060708 = 0x0102030405060708 ∧
     ofBytes (bytes64 0x0102030405060708) = 0x0102030405060708 ∧
     (∀ littleEndian : Bool,
       ntohll littleEndian 0x0102030405060708 = htonll littleEndian 0x0102030405060708 ∧
       ntohll littleEndian (htonll littleEndian 0x0102030405060708) = 0x0102030405060708 ∧
       htonll littleEndian (ntohll littleEndian 0x0102030405060708) = 0x0102030405060708)) :=
  ⟨by decide, by decide, htonll_ntohll_byte_order 0x0102030405060708 (by decide)⟩

/-! ## Mutual exclusion of the gate -/

theorem step_loc_other (s : Sys) (t i : Nat) (h : i ≠ t) : (step s t).loc i = s.loc i := by
  unfold step
  split <;> try split
  all_goals simp [Function.update_apply, h]

theorem step_holds_self (s : Sys) (t : Nat) (h : holdsGate ((step s t).loc t) = true) :
    holdsGate (s.loc t) = true ∨ (s.loc t = Loc.spinning ∧ s.g_lock = false) := by
  unfold step at h
  split at h
  · rename_i hl; simp [holdsGate] at h
  · rename_i hl
    split at h
    · simp [hl, holdsGate] at h
    · right; exact ⟨hl, by simpa using ‹¬ s.g_lock = true›⟩
  · rename_i hl; left; simp [hl, holdsGate]
  · rename_i hl; left; simp [hl, holdsGate]
  · rename_i hl; left; simp [hl, holdsGate]

theorem step_lock (s : Sys) (t : Nat) :
    (step s t).g_lock = true ∨ (s.loc t = Loc.restored ∧ (step s t).loc t = Loc.idle) ∨
    ((step s t).g_lock = s.g_lock ∧ holdsGate ((step s t).loc t) = holdsGate (s.loc t)) := by
  unfold step
  split
  · rename_i hl; right; right; simp [hl, holdsGate]
  · split <;> simp
  · rename_i hl; right; right; simp [hl, holdsGate]
  · rename_i hl; right; right; simp [hl, holdsGate]
  · rename_i hl; right; left; simp [hl]

theorem step_gateInv (s : Sys) (t : Nat) (h : gateInv s) : gateInv (step s t) := by
  obtain ⟨h1, h2⟩ := h
  have key : ∀ i, holdsGate ((step s t).loc i) = true → i ≠ t → holdsGate (s.loc i) = true := by
    intro i hi hne
    rwa [step_loc_other s t i hne] at hi
  constructor
  · intro i j hi hj
    by_cases it : i = t
    · by_cases jt : j = t
      · rw [it, jt]
      · exfalso
        have hj' := key j hj jt
        rw [it] at hi
        rcases step_holds_self s t hi with ht | ⟨_, hfree⟩
        · exact jt (h1 j t hj' ht)
        · rw [h2 j hj'] at hfree
          exact Bool.noConfusion hfree
    · by_cases jt : j = t
      · exfalso
        have hi' := key i hi it
        rw [jt] at hj
        rcases step_holds_self s t hj with ht | ⟨_, hfree⟩
        · exact it (h1 i t hi' ht)
        · rw [h2 i hi'] at hfree
          exact Bool.noConfusion hfree
      · exact h1 i j (key i hi it) (key j hj jt)
  · intro i hi
    rcases step_lock s t with hl | ⟨hr, hidle⟩ | ⟨hl, hh⟩
    · exact hl
    · exfalso
      by_cases it : i = t
      · rw [it, hidle] at hi
        simp [holdsGate] at hi
      · have hi' := key i hi it
        have ht : holdsGate (s.loc t) = true := by simp [hr, holdsGate]
        exact it (h1 i t hi' ht)
    · rw [hl]
      by_cases it : i = t
      · rw [it, hh] at hi
        exact h2 t hi
      · exact h2 i (key i hi it)

theorem run_gateInv (s : Sys) (sched : List Nat) (h : gateInv s) : gateInv (run s sched) := by
  induction sched generalizing s with
  | nil => exact h
  | cons t rest ih => exact ih (step s t) (step_gateInv s t h)

theorem initSys_gateInv (d : Sigaction) : gateInv (initSys d) := by
  constructor
  · intro i j hi
    simp [initSys, holdsGate] at hi
  · intro i hi
    simp [initSys, holdsGate] at hi

/-- C7: in every state that threads executing GetCallStack on other threads
reach from the state with the gate free, by steps that are one thread's atomic
exchange on the gate, handler install, handler restore or gate release, two
different threads are never both between acquiring the gate and releasing it;
so two different threads never both have the transient handler installed, the
interval in which a capture arms the shared buffer. -/
theorem gate_mutual_exclusion (d : Sigaction) (sched : List Nat) (i j : Nat) (hij : i ≠ j) :
    ¬ (holdsGate ((run (initSys d) sched).loc i) = true ∧
       holdsGate ((run (initSys d) sched).loc j) = true) ∧
    ¬ ((run (initSys d) sched).loc i = Loc.installed ∧
       (run (initSys d) sched).loc j = Loc.installed) := by
  have h := (run_gateInv (initSys d) sched (initSys_gateInv d)).1
  constructor
  · rintro ⟨hi, hj⟩
    exact hij (h i j hi hj)
  · rintro ⟨hi, hj⟩
    exact hij (h i j (by simp [hi, holdsGate]) (by simp [hj, holdsGate]))

theorem gate_mutual_exclusion_witness :
    (1 : Nat) ≠ 2 ∧
    (run (initSys sampleState.disposition) [1, 1, 2, 2, 1, 2]).loc 1 = Loc.installed ∧
    (run (initSys sampleState.disposition) [1, 1, 2, 2, 1, 2]).loc 2 = Loc.spinning ∧
    (¬ (holdsGate ((run (initSys sampleState.disposition) [1, 1, 2, 2, 1, 2]).loc 1) = true ∧
        holdsGate ((run (initSys sampleState.disposition) [1, 1, 2, 2, 1, 2]).loc 2) = true) ∧
     ¬ ((run (initSys sampleState.disposition) [1, 1, 2, 2, 1, 2]).loc 1 = Loc.installed ∧
        (run (initSys sampleState.disposition) [1, 1, 2, 2, 1, 2]).loc 2 = Loc.installed)) :=
  ⟨by decide, by decide, by decide,
   gate_mutual_exclusion sampleState.disposition [1, 1, 2, 2, 1, 2] 1 2 (by decide)⟩

end Thunder
